import Mathlib

/-!
Shallow embedding of the libvirt RPC message codec (src/rpc/virnetmessage.c)
and proofs about its claims.

Modelling conventions:
  * Bytes are Nat values below 256; a message buffer is a List Nat standing
    for the allocated bytes of msg.buffer.
  * size_t and unsigned int arithmetic that can wrap is written with explicit
    modulus by 18446744073709551616 (2 to the 64) and 4294967296 (2 to the 32).
    Where the source arithmetic provably cannot wrap we use plain Nat.
  * xdrmem streams check only the declared stream size, exactly as the C
    xdrmem primitives do; reads beyond the end of the allocation list yield 0
    and writes beyond it are dropped (both are undefined behaviour in C and
    never exercised by the theorems below).
  * Fallible C functions returning 0 or -1 plus a virReportError call are
    modelled as returning a pair of an Option RpcError (none on success) and
    the mutated message, since callers can observe the mutated state even on
    failure.
-/

/-- Size of the length word, VIR_NET_MESSAGE_LEN_MAX. Modelled from the spec:
the header virnetmessage.h with the protocol constants is not under src;
the spec fixes LEN_SIZE = 4. -/
def VIR_NET_MESSAGE_LEN_MAX : Nat := 4

/-- Cap on the post-length part of a frame, VIR_NET_MESSAGE_MAX. Modelled from
the spec: PAYLOAD_MAX is 256 MiB. -/
def VIR_NET_MESSAGE_MAX : Nat := 268435456

/-- Maximum number of passed file descriptors, VIR_NET_MESSAGE_NUM_FDS_MAX.
Modelled from the spec: FDS_MAX = 32. -/
def VIR_NET_MESSAGE_NUM_FDS_MAX : Nat := 32

/-- Initial payload capacity guess, VIR_NET_MESSAGE_INITIAL. Modelled from the
spec, which leaves the value open; libvirt uses 65536. No claim depends on the
exact value. -/
def VIR_NET_MESSAGE_INITIAL : Nat := 65536

/-- Stream size used when re-encoding the length word,
VIR_NET_MESSAGE_HEADER_XDR_LEN. Modelled from the spec: the size of the
length word, 4. -/
def VIR_NET_MESSAGE_HEADER_XDR_LEN : Nat := 4

/-- Wrap modulus of size_t on the target platform. -/
def SIZE_T_MOD : Nat := 18446744073709551616

/-- Wrap modulus of unsigned int on the target platform. -/
def UINT_MOD : Nat := 4294967296

/-- Error outcomes, one constructor per virReportError site of the modelled
functions. All of them are reported with the code VIR_ERR_RPC in the source;
fuelExhausted is a model artifact marking the one state in which the C
growth loop does not terminate (payload capacity stuck at zero). -/
inductive RpcError where
  | decodeLengthFailed
  | packetTooSmall
  | packetTooLarge
  | encodeHeaderLenFailed
  | encodeHeaderFailed
  | tooManyFDsOut
  | encodeNumFDsFailed
  | decodeNumFDsFailed
  | tooManyFDsIn
  | payloadTooLarge
  | streamTooLong
  | reencodeLenFailed
  | fuelExhausted
deriving DecidableEq

/-- Error code VIR_ERR_OK. Modelled from the spec: virerror.h is not under
src; only the fact that OK is distinct from the other codes matters. -/
def VIR_ERR_OK : Nat := 0

/-- Error code VIR_ERR_INTERNAL_ERROR. Modelled from the spec. -/
def VIR_ERR_INTERNAL_ERROR : Nat := 1

/-- Error level VIR_ERR_ERROR. Modelled from the spec. -/
def VIR_ERR_ERROR : Nat := 2

/-- Error domain VIR_FROM_RPC. Modelled from the spec. -/
def VIR_FROM_RPC : Nat := 7

/-- Error code VIR_ERR_RPC, the code the spec calls ProtocolError.
Modelled from the spec. -/
def VIR_ERR_RPC : Nat := 29

/-- The libvirt error code each modelled report site raises. Every
virReportError in the modelled functions uses VIR_ERR_RPC. -/
def RpcError.virCode : RpcError → Nat
  | .fuelExhausted => 0
  | _ => VIR_ERR_RPC

/-- True when the result is a failure reported with the protocol error code. -/
def protocolFailed : Option RpcError → Bool
  | some e => decide (e.virCode = VIR_ERR_RPC)
  | none => false

/-- The decoded message header (virNetMessageHeader): six unsigned 32-bit
fields. Modelled from the spec: the generated marshaller is external; the
header is program id, version, procedure, type, serial and status, and its
XDR form is the six big-endian words in that order. -/
structure VirNetMessageHeader where
  prog : Nat
  vers : Nat
  proc : Nat
  type : Nat
  serial : Nat
  status : Nat
deriving DecidableEq

/-- The fields of struct virNetMessage except the intrusive next link, which
is modelled separately so that the transmit queue can be a plain inductive
chain. cb is the optional destructor callback (identified by a number) and
cookie is the opaque pointer passed to it. -/
structure VirNetMessageCore where
  tracked : Bool
  header : VirNetMessageHeader
  bufferLength : Nat
  bufferOffset : Nat
  buffer : List Nat
  nfds : Nat
  donefds : Nat
  fds : List Int
  cb : Option Nat
  cookie : Nat
deriving DecidableEq

/-- A message together with its intrusive next link (struct virNetMessage). -/
inductive VirNetMessage where
  | mk (core : VirNetMessageCore) (next : Option VirNetMessage)

def VirNetMessage.core : VirNetMessage → VirNetMessageCore
  | .mk c _ => c

def VirNetMessage.next : VirNetMessage → Option VirNetMessage
  | .mk _ n => n

/-- The all-zero header value. -/
def zeroHeader : VirNetMessageHeader :=
  { prog := 0, vers := 0, proc := 0, type := 0, serial := 0, status := 0 }

/-- The all-zero message record. -/
def zeroCore : VirNetMessageCore :=
  { tracked := false, header := zeroHeader, bufferLength := 0, bufferOffset := 0,
    buffer := [], nfds := 0, donefds := 0, fds := [], cb := none, cookie := 0 }

/-- virNetMessageNew: a zeroed record with the chosen tracked flag. -/
def virNetMessageNew (tracked : Bool) : VirNetMessage :=
  .mk { zeroCore with tracked := tracked } none

/-- Big-endian value of four bytes, as the XDR unsigned int decoder reads it. -/
def beVal (b0 b1 b2 b3 : Nat) : Nat :=
  b0 % 256 * 16777216 + b1 % 256 * 65536 + b2 % 256 * 256 + b3 % 256

/-- Value of the XDR unsigned int stored at byte position p of the buffer.
Reads beyond the end of the allocation yield 0 (unspecified memory in C,
never exercised by the theorems). -/
def readU32 (buf : List Nat) (p : Nat) : Nat :=
  beVal (buf.getD p 0) (buf.getD (p + 1) 0) (buf.getD (p + 2) 0) (buf.getD (p + 3) 0)

/-- Store v as an XDR unsigned int (big-endian) at byte position p. Writes
beyond the end of the allocation are dropped, as List.set is. -/
def writeU32 (buf : List Nat) (p : Nat) (v : Nat) : List Nat :=
  ((((buf.set p (v / 16777216 % 256)).set (p + 1) (v / 65536 % 256)).set
      (p + 2) (v / 256 % 256)).set (p + 3) (v % 256))

/-- Store a run of bytes starting at position p (memcpy into the buffer). -/
def writeBytes (buf : List Nat) (p : Nat) : List Nat → List Nat
  | [] => buf
  | b :: rest => writeBytes (buf.set p b) (p + 1) rest

/-- VIR_REALLOC_N to n bytes: the old prefix is kept, new bytes are
unspecified in C and modelled as 0. -/
def resizeTo (buf : List Nat) (n : Nat) : List Nat :=
  buf.take n ++ List.replicate (n - buf.length) 0

/-- virNetMessageDecodeLength: read the big-endian length word from a buffer
holding the first bufferLength bytes, validate it and grow the declared
buffer. Mirrors the source line by line: the xdr_u_int decode fails exactly
when the stream holds fewer than 4 bytes; bufferOffset is set to the stream
position before the range checks run. -/
def virNetMessageDecodeLength (msg : VirNetMessageCore) :
    Option RpcError × VirNetMessageCore :=
  if msg.bufferLength < 4 then
    (some .decodeLengthFailed, msg)
  else
    let len := readU32 msg.buffer 0
    let msg := { msg with bufferOffset := 4 }
    if len < VIR_NET_MESSAGE_LEN_MAX then
      (some .packetTooSmall, msg)
    else
      let len := len - VIR_NET_MESSAGE_LEN_MAX
      if len > VIR_NET_MESSAGE_MAX then
        (some .packetTooLarge, msg)
      else
        let msg := { msg with bufferLength := msg.bufferLength + len }
        let msg := { msg with buffer := resizeTo msg.buffer msg.bufferLength }
        (none, msg)

/-- Big-endian (XDR) byte run of a 32-bit word. -/
def beBytes (v : Nat) : List Nat :=
  [v / 16777216 % 256, v / 65536 % 256, v / 256 % 256, v % 256]

/-- Wire form of the header written by the generated marshaller: the six
unsigned words in declaration order, 24 bytes. Modelled from the spec: the
generated xdr_virNetMessageHeader is external to src. -/
def xdrHeaderBytes (h : VirNetMessageHeader) : List Nat :=
  beBytes h.prog ++ beBytes h.vers ++ beBytes h.proc ++ beBytes h.type ++
    beBytes h.serial ++ beBytes h.status

/-- virNetMessageEncodeHeader: allocate INITIAL + LEN_MAX bytes, write a zero
length placeholder, marshal the header, back-patch the length word with the
current position and leave bufferOffset just past the header. The xdr size
checks mirror the xdrmem primitives; with the fixed constants they always
pass. -/
def virNetMessageEncodeHeader (msg : VirNetMessageCore) :
    Option RpcError × VirNetMessageCore :=
  let msg := { msg with
    bufferLength := VIR_NET_MESSAGE_INITIAL + VIR_NET_MESSAGE_LEN_MAX }
  let msg := { msg with buffer := resizeTo msg.buffer msg.bufferLength,
                        bufferOffset := 0 }
  if msg.bufferLength < 4 then
    (some .encodeHeaderLenFailed, msg)
  else
    let msg := { msg with buffer := writeU32 msg.buffer 0 0 }
    if msg.bufferLength < 4 + 24 then
      (some .encodeHeaderFailed, msg)
    else
      let msg := { msg with
        buffer := writeBytes msg.buffer 4 (xdrHeaderBytes msg.header) }
      let len := 4 + 24
      let msg := { msg with buffer := writeU32 msg.buffer 0 (len % UINT_MOD) }
      (none, { msg with bufferOffset := msg.bufferOffset + len })

/-- virNetMessageEncodeNumFDs: the nfds counter (size_t) is narrowed to
unsigned int before the FDS_MAX check; on success the count is written at
bufferOffset and the cursor advances by 4. The xdr_u_int write fails exactly
when fewer than 4 stream bytes remain. -/
def virNetMessageEncodeNumFDs (msg : VirNetMessageCore) :
    Option RpcError × VirNetMessageCore :=
  let numFDs := msg.nfds % UINT_MOD
  if numFDs > VIR_NET_MESSAGE_NUM_FDS_MAX then
    (some .tooManyFDsOut, msg)
  else if msg.bufferLength - msg.bufferOffset < 4 then
    (some .encodeNumFDsFailed, msg)
  else
    let msg := { msg with buffer := writeU32 msg.buffer msg.bufferOffset numFDs }
    (none, { msg with bufferOffset := msg.bufferOffset + 4 })

/-- virNetMessageDecodeNumFDs: decode the count word, advance the cursor,
then check the FDS_MAX cap; when the message has no descriptor slots yet,
allocate count slots holding the sentinel -1. -/
def virNetMessageDecodeNumFDs (msg : VirNetMessageCore) :
    Option RpcError × VirNetMessageCore :=
  if msg.bufferLength - msg.bufferOffset < 4 then
    (some .decodeNumFDsFailed, msg)
  else
    let numFDs := readU32 msg.buffer msg.bufferOffset
    let msg := { msg with bufferOffset := msg.bufferOffset + 4 }
    if numFDs > VIR_NET_MESSAGE_NUM_FDS_MAX then
      (some .tooManyFDsIn, msg)
    else
      let msg :=
        if msg.nfds = 0 then
          { msg with nfds := numFDs, fds := List.replicate numFDs (-1) }
        else msg
      (none, msg)

/-- Abstract marshaller callback for the typed payload encoder: given the
size of the destination stream it either fails or returns the bytes it wrote
(the stream position on success is their count). -/
def XdrFilter : Type := Nat → Option (List Nat)

/-- A marshaller never writes more bytes than the stream holds; this is
enforced per primitive by the xdrmem backend. -/
def filterWF (f : XdrFilter) : Prop :=
  ∀ n l, f n = some l → l.length ≤ n

/-- Shared finalisation of both payload encoders: re-encode the length word
at position 0 over a 4-byte stream (which always holds one word, so the
xdr_u_int cannot fail), then publish bufferLength = bufferOffset and reset
bufferOffset to 0. -/
def payloadFinalize (msg : VirNetMessageCore) :
    Option RpcError × VirNetMessageCore :=
  let msglen := msg.bufferOffset % UINT_MOD
  if VIR_NET_MESSAGE_HEADER_XDR_LEN < 4 then
    (some .reencodeLenFailed, msg)
  else
    let msg := { msg with buffer := writeU32 msg.buffer 0 msglen }
    let msg := { msg with bufferLength := msg.bufferOffset }
    (none, { msg with bufferOffset := 0 })

/-- Growth loop of virNetMessageEncodePayload, with fuel standing in for the
unbounded C while loop: try the marshaller on the remaining stream; on
failure compute newlen = (bufferLength - LEN_MAX) * 2 in unsigned int
arithmetic from the size_t bufferLength, give up past VIR_NET_MESSAGE_MAX,
otherwise grow to newlen + LEN_MAX and retry. Partial writes of a failed
marshaller attempt are not modelled (the bytes past bufferOffset are
unspecified until an attempt succeeds). Fuel can only run out in the state
where the C loop itself cycles forever without growing. -/
def encodePayloadAux (filter : XdrFilter) :
    Nat → VirNetMessageCore → Option RpcError × VirNetMessageCore
  | 0, msg => (some .fuelExhausted, msg)
  | fuel + 1, msg =>
    match filter (msg.bufferLength - msg.bufferOffset) with
    | some out =>
      let msg := { msg with buffer := writeBytes msg.buffer msg.bufferOffset out }
      let msg := { msg with bufferOffset := msg.bufferOffset + out.length }
      payloadFinalize msg
    | none =>
      let newlen :=
        (msg.bufferLength + SIZE_T_MOD - VIR_NET_MESSAGE_LEN_MAX) % SIZE_T_MOD
          % UINT_MOD * 2 % UINT_MOD
      if newlen > VIR_NET_MESSAGE_MAX then
        (some .payloadTooLarge, msg)
      else
        let msg := { msg with bufferLength := newlen + VIR_NET_MESSAGE_LEN_MAX }
        let msg := { msg with buffer := resizeTo msg.buffer msg.bufferLength }
        encodePayloadAux filter fuel msg

/-- virNetMessageEncodePayload: run the growth loop. 64 doublings always
exceed the unsigned int range, so the fuel is never the binding constraint
except in the state where the C loop diverges. -/
def virNetMessageEncodePayload (msg : VirNetMessageCore) (filter : XdrFilter) :
    Option RpcError × VirNetMessageCore :=
  encodePayloadAux filter 64 msg

/-- virNetMessageEncodePayloadRaw: append the raw bytes (none models a NULL
data pointer), growing the buffer to exactly bufferOffset + len after the
cap check when the remaining capacity is short, then finalise. -/
def virNetMessageEncodePayloadRaw (msg : VirNetMessageCore)
    (data : Option (List Nat)) : Option RpcError × VirNetMessageCore :=
  match data with
  | some l =>
    if 0 < l.length then
      if msg.bufferLength - msg.bufferOffset < l.length then
        if msg.bufferOffset + l.length >
            VIR_NET_MESSAGE_MAX + VIR_NET_MESSAGE_LEN_MAX then
          (some .streamTooLong, msg)
        else
          let msg := { msg with bufferLength := msg.bufferOffset + l.length }
          let msg := { msg with buffer := resizeTo msg.buffer msg.bufferLength }
          let msg := { msg with buffer := writeBytes msg.buffer msg.bufferOffset l }
          payloadFinalize { msg with bufferOffset := msg.bufferOffset + l.length }
      else
        let msg := { msg with buffer := writeBytes msg.buffer msg.bufferOffset l }
        payloadFinalize { msg with bufferOffset := msg.bufferOffset + l.length }
    else
      payloadFinalize msg
  | none => payloadFinalize msg

/-- One encode operation that may follow EncodeHeader on a message. -/
inductive EncodeOp where
  | opNumFDs
  | opPayload (filter : XdrFilter)
  | opPayloadRaw (data : Option (List Nat))

/-- Run one encode operation. -/
def encodeStep (msg : VirNetMessageCore) :
    EncodeOp → Option RpcError × VirNetMessageCore
  | .opNumFDs => virNetMessageEncodeNumFDs msg
  | .opPayload f => virNetMessageEncodePayload msg f
  | .opPayloadRaw d => virNetMessageEncodePayloadRaw msg d

/-- Well-formedness of an operation: only the abstract marshaller carries an
obligation. -/
def encodeOpWF : EncodeOp → Prop
  | .opPayload f => filterWF f
  | _ => True

/-- All intermediate states of an encode sequence, the start state included. -/
def encodeStates : VirNetMessageCore → List EncodeOp → List VirNetMessageCore
  | msg, [] => [msg]
  | msg, op :: rest => msg :: encodeStates (encodeStep msg op).2 rest

/-- States of a full encode run: EncodeHeader first, then the given ops. -/
def encodeRun (msg : VirNetMessageCore) (ops : List EncodeOp) :
    List VirNetMessageCore :=
  encodeStates (virNetMessageEncodeHeader msg).2 ops

/-- Pairwise check of a relation along a list of states. -/
def chainB (r : VirNetMessageCore → VirNetMessageCore → Bool) :
    List VirNetMessageCore → Bool
  | [] => true
  | [_] => true
  | s :: s' :: rest => r s s' && chainB r (s' :: rest)

/-- Step relation of the amended growth claim: bufferLength does not
decrease, except at a finalisation, which resets bufferOffset to 0 and keeps
bufferLength at least the bytes already written. -/
def encodeMonoB (s s' : VirNetMessageCore) : Bool :=
  decide (s.bufferLength ≤ s'.bufferLength) ||
    (decide (s'.bufferOffset = 0) && decide (s.bufferOffset ≤ s'.bufferLength))

/-- Full check of the amended growth claim over a state list. -/
def encodeTraceOK (states : List VirNetMessageCore) : Bool :=
  states.all (fun s => decide (s.bufferOffset ≤ s.bufferLength)) &&
    chainB encodeMonoB states

/-- virNetMessageQueuePush: walk the intrusive next chain to the tail and
hang the new message there; an empty queue becomes the message itself. -/
def chainAppend : VirNetMessage → VirNetMessage → VirNetMessage
  | .mk c none, m => .mk c (some m)
  | .mk c (some n), m => .mk c (some (chainAppend n m))

/-- Push onto the queue head pointer. -/
def virNetMessageQueuePush (queue : Option VirNetMessage)
    (msg : VirNetMessage) : Option VirNetMessage :=
  match queue with
  | none => some msg
  | some head => some (chainAppend head msg)

/-- virNetMessageQueueServe: pop the head, stealing its next pointer into
the queue and clearing the next link of the returned message. -/
def virNetMessageQueueServe (queue : Option VirNetMessage) :
    Option VirNetMessage × Option VirNetMessage :=
  match queue with
  | none => (none, none)
  | some (.mk c n) => (some (.mk c none), n)

/-- Results of n successive serve calls. -/
def queueServeList : Option VirNetMessage → Nat → List (Option VirNetMessage)
  | _, 0 => []
  | q, n + 1 =>
    let r := virNetMessageQueueServe q
    r.1 :: queueServeList r.2 n

/-- Messages of a queue in service order, next links cleared as serve
returns them. -/
def queueToList : Option VirNetMessage → List VirNetMessage
  | none => []
  | some (.mk c n) => .mk c none :: queueToList n

/-- virNetMessageClearFDs: close every descriptor, reset both counters and
release the array. -/
def virNetMessageClearFDs (msg : VirNetMessageCore) : VirNetMessageCore :=
  { msg with donefds := 0, nfds := 0, fds := [] }

/-- virNetMessageClearPayload: ClearFDs, zero both cursors, release the
buffer. -/
def virNetMessageClearPayload (msg : VirNetMessageCore) : VirNetMessageCore :=
  let msg := virNetMessageClearFDs msg
  { msg with bufferOffset := 0, bufferLength := 0, buffer := [] }

/-- virNetMessageClear: ClearPayload, then memset the whole record to zero
and restore the saved tracked flag. The destructor callback is not invoked. -/
def virNetMessageClear (msg : VirNetMessage) : VirNetMessage :=
  let tracked := msg.core.tracked
  let cleared := virNetMessageClearPayload msg.core
  -- the memset overwrites every field, the cleared payload state included
  let zeroed := (fun (_ : VirNetMessageCore) => zeroCore) cleared
  .mk { zeroed with tracked := tracked } none

/-- Observable events of the free path, in program order. -/
inductive FreeEvent where
  | callbackCall (cookie : Nat)
  | closeFD (fd : Int)
  | freeBuffer
  | freeMessage
deriving DecidableEq

/-- True exactly for destructor callback invocations. -/
def isCallbackEvent : FreeEvent → Bool
  | .callbackCall _ => true
  | _ => false

/-- Events of virNetMessageClearFDs: VIR_FORCE_CLOSE of fds i for i below
nfds (reads past the array end are unspecified memory, modelled as -1). -/
def clearFDsTrace (msg : VirNetMessageCore) : List FreeEvent :=
  (List.range msg.nfds).map (fun i => FreeEvent.closeFD (msg.fds.getD i (-1)))

/-- virNetMessageFree as its event trace: a no-op on null; otherwise the
destructor callback (when present) with the cookie, then ClearPayload
(descriptor closes and the buffer release), then the record release. -/
def virNetMessageFreeTrace (msg : Option VirNetMessage) : List FreeEvent :=
  match msg with
  | none => []
  | some m =>
    (match m.core.cb with
     | some _ => [FreeEvent.callbackCall m.core.cookie]
     | none => []) ++
    (clearFDsTrace m.core ++ [FreeEvent.freeBuffer]) ++ [FreeEvent.freeMessage]

/-- Thread-local last error as virGetLastError exposes it. Modelled from the
spec: virerror.h is not under src; the record carries code, domain, level,
the optional message and three optional strings, and two integers. -/
structure VirError where
  code : Nat
  domain : Nat
  message : Option String
  level : Nat
  str1 : Option String
  str2 : Option String
  str3 : Option String
  int1 : Int
  int2 : Int
deriving DecidableEq

/-- Wire-representable error record (struct virNetMessageError), same
fields. Modelled from the spec. -/
structure VirNetMessageError where
  code : Nat
  domain : Nat
  message : Option String
  level : Nat
  str1 : Option String
  str2 : Option String
  str3 : Option String
  int1 : Int
  int2 : Int
deriving DecidableEq

/-- The all-zero wire error record (code VIR_ERR_OK). -/
def zeroNetMessageError : VirNetMessageError :=
  { code := VIR_ERR_OK, domain := 0, message := none, level := 0,
    str1 := none, str2 := none, str3 := none, int1 := 0, int2 := 0 }

/-- Fixed diagnostic recorded when no thread-local error is set. -/
def saveErrorFixedMessage : String :=
  "Library function returned error but did not set virError"

/-- virNetMessageSaveError: first error wins; otherwise memset the record and
copy the thread-local error, or record the synthetic internal error when
none is set. -/
def virNetMessageSaveError (rerr : VirNetMessageError)
    (lastError : Option VirError) : VirNetMessageError :=
  if rerr.code ≠ VIR_ERR_OK then rerr
  else
    match lastError with
    | some verr =>
      { zeroNetMessageError with
        code := verr.code, domain := verr.domain, message := verr.message,
        level := verr.level, str1 := verr.str1, str2 := verr.str2,
        str3 := verr.str3, int1 := verr.int1, int2 := verr.int2 }
    | none =>
      { zeroNetMessageError with
        code := VIR_ERR_INTERNAL_ERROR, domain := VIR_FROM_RPC,
        message := some saveErrorFixedMessage, level := VIR_ERR_ERROR }

/-- Message used by the C9 counterexample: nfds is one past the unsigned int
range, with ample buffer space. -/
def c9Msg : VirNetMessageCore :=
  { zeroCore with
    nfds := 4294967296, bufferLength := 8,
    buffer := [0, 0, 0, 0, 0, 0, 0, 0] }

/-- Cursor invariant maintained by every encode operation: the write cursor
stays within the declared length, and the declared length stays within the
frame cap (LEN_MAX + PAYLOAD_MAX). -/
def cursorInv (s : VirNetMessageCore) : Prop :=
  s.bufferOffset ≤ s.bufferLength ∧
    s.bufferLength ≤ VIR_NET_MESSAGE_MAX + VIR_NET_MESSAGE_LEN_MAX

/-- Step relation of the amended growth claim, in Prop form. -/
def stepRel (s s' : VirNetMessageCore) : Prop :=
  s.bufferLength ≤ s'.bufferLength ∨
    (s'.bufferOffset = 0 ∧ s.bufferOffset ≤ s'.bufferLength)

/-- Distinct fresh messages pushed by the C5 witness. -/
def qMsgA : VirNetMessage := .mk { zeroCore with cookie := 1 } none

/-- Second witness message. -/
def qMsgB : VirNetMessage := .mk { zeroCore with cookie := 2 } none

/-- Third witness message. -/
def qMsgC : VirNetMessage := .mk { zeroCore with cookie := 3 } none

/-- Post-header-shaped message used by the C2 witness: 4 payload bytes of
capacity, cursor right after the length word. -/
def growWitnessMsg : VirNetMessageCore :=
  { zeroCore with
    bufferLength := 8, bufferOffset := 4,
    buffer := [0, 0, 0, 0, 0, 0, 0, 0] }

/-- Message at the frame cap used by the C2 witness: doubling its payload
capacity exceeds VIR_NET_MESSAGE_MAX. -/
def capWitnessMsg : VirNetMessageCore :=
  { zeroCore with
    bufferLength :=
      VIR_NET_MESSAGE_MAX + VIR_NET_MESSAGE_LEN_MAX,
    bufferOffset := 4 }

/-- Post-header-shaped message used by the C3 witness: 12 declared bytes,
cursor at 8. -/
def finWitnessMsg : VirNetMessageCore :=
  { zeroCore with
    bufferLength := 12, bufferOffset := 8,
    buffer := List.replicate 12 0 }

/-- Marshaller used by the C3 witness: writes two bytes when they fit. -/
def finWitnessFilter : XdrFilter :=
  fun n => if 2 ≤ n then some [7, 7] else none

/-- C1: on a fresh message holding exactly the 4 length bytes, DecodeLength
reads the big-endian word L, fails with the protocol error code when L is
below 4 or when L - 4 exceeds VIR_NET_MESSAGE_MAX, and otherwise succeeds
with bufferLength = L and bufferOffset = 4. -/
theorem decodeLength_spec (msg : VirNetMessageCore)
    (hlen : msg.bufferLength = 4) (hbuf : msg.buffer.length = 4) :
    ((readU32 msg.buffer 0 < 4 ∨
        readU32 msg.buffer 0 - 4 > VIR_NET_MESSAGE_MAX) →
      protocolFailed (virNetMessageDecodeLength msg).1 = true) ∧
    (4 ≤ readU32 msg.buffer 0 →
      readU32 msg.buffer 0 - 4 ≤ VIR_NET_MESSAGE_MAX →
      (virNetMessageDecodeLength msg).1 = none ∧
      (virNetMessageDecodeLength msg).2.bufferLength = readU32 msg.buffer 0 ∧
      (virNetMessageDecodeLength msg).2.bufferOffset = 4) := by
  unfold virNetMessageDecodeLength
  rw [hlen]
  simp only [VIR_NET_MESSAGE_LEN_MAX, VIR_NET_MESSAGE_MAX] at *
  norm_num
  constructor
  · intro h
    rcases h with h | h
    · rw [if_pos h]
      rfl
    · rw [if_neg (by omega), if_pos (by omega)]
      rfl
  · intro h1 h2
    rw [if_neg (by omega), if_neg (by omega)]
    refine ⟨rfl, by simp; omega, rfl⟩

/-- Witness for C1: the undersized frame 00 00 00 03 fails with the protocol
error, the oversized frame FF FF FF FF fails with the protocol error, and the
frame 00 00 00 C8 succeeds with bufferLength 200 and bufferOffset 4. -/
theorem decodeLength_spec_witness :
    protocolFailed (virNetMessageDecodeLength
      { zeroCore with bufferLength := 4, buffer := [0, 0, 0, 3] }).1 = true ∧
    protocolFailed (virNetMessageDecodeLength
      { zeroCore with bufferLength := 4, buffer := [255, 255, 255, 255] }).1 = true ∧
    (virNetMessageDecodeLength
      { zeroCore with bufferLength := 4, buffer := [0, 0, 0, 200] }).1 = none ∧
    (virNetMessageDecodeLength
      { zeroCore with bufferLength := 4, buffer := [0, 0, 0, 200] }).2.bufferLength = 200 ∧
    (virNetMessageDecodeLength
      { zeroCore with bufferLength := 4, buffer := [0, 0, 0, 200] }).2.bufferOffset = 4 := by
  refine ⟨?_, ?_, ?_⟩
  · exact (decodeLength_spec
      { zeroCore with bufferLength := 4, buffer := [0, 0, 0, 3] } rfl rfl).1
      (by left; decide)
  · exact (decodeLength_spec
      { zeroCore with bufferLength := 4, buffer := [255, 255, 255, 255] } rfl rfl).1
      (by right; decide)
  · exact (decodeLength_spec
      { zeroCore with bufferLength := 4, buffer := [0, 0, 0, 200] } rfl rfl).2
      (by decide) (by decide)

/-- C6: Clear preserves the tracked flag and zeroes every other field of the
record: buffer and both cursors, header, descriptor counts and array,
callback and cookie, and the next link. -/
theorem clear_spec (m : VirNetMessage) :
    (virNetMessageClear m).core.tracked = m.core.tracked ∧
    (virNetMessageClear m).core.buffer = [] ∧
    (virNetMessageClear m).core.bufferLength = 0 ∧
    (virNetMessageClear m).core.bufferOffset = 0 ∧
    (virNetMessageClear m).core.header = zeroHeader ∧
    (virNetMessageClear m).core.nfds = 0 ∧
    (virNetMessageClear m).core.donefds = 0 ∧
    (virNetMessageClear m).core.fds = [] ∧
    (virNetMessageClear m).core.cb = none ∧
    (virNetMessageClear m).core.cookie = 0 ∧
    (virNetMessageClear m).next = none := by
  cases m with
  | mk c n =>
    simp [virNetMessageClear, VirNetMessage.core, VirNetMessage.next, zeroCore]

/-- C7: with a destructor callback installed, the free trace starts with the
single callback invocation carrying the cookie (so the callback runs before
every descriptor close and before the buffer release), the callback fires
exactly once, and freeing a null message produces no events at all. -/
theorem free_spec (m : VirNetMessage) (c : Nat) (hcb : m.core.cb = some c) :
    (virNetMessageFreeTrace (some m)).head? =
      some (FreeEvent.callbackCall m.core.cookie) ∧
    (virNetMessageFreeTrace (some m)).countP isCallbackEvent = 1 ∧
    virNetMessageFreeTrace none = [] := by
  refine ⟨?_, ?_, rfl⟩
  · simp [virNetMessageFreeTrace, hcb]
  · simp [virNetMessageFreeTrace, hcb, clearFDsTrace, List.countP_append,
      List.countP_cons, isCallbackEvent, List.countP_map, Function.comp]

/-- Witness for C7: a message with callback 5, cookie 9 and two descriptors
produces a trace headed by the single callback event, and the null free is
empty. -/
theorem free_spec_witness :
    (virNetMessageFreeTrace (some (.mk
        { zeroCore with cb := some 5, cookie := 9, nfds := 2, fds := [3, 4] }
        none))).head? = some (FreeEvent.callbackCall 9) ∧
    (virNetMessageFreeTrace (some (.mk
        { zeroCore with cb := some 5, cookie := 9, nfds := 2, fds := [3, 4] }
        none))).countP isCallbackEvent = 1 ∧
    virNetMessageFreeTrace none = [] :=
  free_spec (.mk
    { zeroCore with cb := some 5, cookie := 9, nfds := 2, fds := [3, 4] }
    none) 5 rfl

/-- C8: first error wins, so a record holding a non-OK code is returned
unchanged; a record holding the OK code with no thread-local error set
becomes the synthetic internal error with the fixed diagnostic; otherwise
the thread-local code, domain, level, strings and integers are copied. -/
theorem saveError_spec (rerr : VirNetMessageError)
    (lastError : Option VirError) :
    (rerr.code ≠ VIR_ERR_OK →
      virNetMessageSaveError rerr lastError = rerr) ∧
    (rerr.code = VIR_ERR_OK → lastError = none →
      (virNetMessageSaveError rerr lastError).code = VIR_ERR_INTERNAL_ERROR ∧
      (virNetMessageSaveError rerr lastError).domain = VIR_FROM_RPC ∧
      (virNetMessageSaveError rerr lastError).message =
        some saveErrorFixedMessage ∧
      (virNetMessageSaveError rerr lastError).level = VIR_ERR_ERROR) ∧
    (rerr.code = VIR_ERR_OK → ∀ verr, lastError = some verr →
      (virNetMessageSaveError rerr lastError).code = verr.code ∧
      (virNetMessageSaveError rerr lastError).domain = verr.domain ∧
      (virNetMessageSaveError rerr lastError).level = verr.level ∧
      (virNetMessageSaveError rerr lastError).message = verr.message ∧
      (virNetMessageSaveError rerr lastError).str1 = verr.str1 ∧
      (virNetMessageSaveError rerr lastError).str2 = verr.str2 ∧
      (virNetMessageSaveError rerr lastError).str3 = verr.str3 ∧
      (virNetMessageSaveError rerr lastError).int1 = verr.int1 ∧
      (virNetMessageSaveError rerr lastError).int2 = verr.int2) := by
  refine ⟨?_, ?_, ?_⟩
  · intro h
    simp [virNetMessageSaveError, h]
  · intro h hnone
    subst hnone
    simp [virNetMessageSaveError, h]
  · intro h verr hsome
    subst hsome
    simp [virNetMessageSaveError, h]

/-- Witness for C8: a record already holding code 5 survives a save over a
set thread-local error (first wins), the OK record with no thread-local
error becomes the synthetic internal error, and the OK record copies a set
thread-local error field by field. -/
theorem saveError_spec_witness :
    virNetMessageSaveError { zeroNetMessageError with code := 5 }
        (some { code := 9, domain := 7, message := none, level := 2,
                str1 := none, str2 := none, str3 := none, int1 := 1, int2 := 2 }) =
      { zeroNetMessageError with code := 5 } ∧
    (virNetMessageSaveError zeroNetMessageError none).code =
      VIR_ERR_INTERNAL_ERROR ∧
    (virNetMessageSaveError zeroNetMessageError none).message =
      some saveErrorFixedMessage ∧
    (virNetMessageSaveError zeroNetMessageError
      (some { code := 9, domain := 7, message := none, level := 2,
              str1 := none, str2 := none, str3 := none, int1 := 1, int2 := 2 })).code = 9 ∧
    (virNetMessageSaveError zeroNetMessageError
      (some { code := 9, domain := 7, message := none, level := 2,
              str1 := none, str2 := none, str3 := none, int1 := 1, int2 := 2 })).int2 = 2 := by
  refine ⟨?_, ?_, ?_, ?_, ?_⟩
  · exact (saveError_spec { zeroNetMessageError with code := 5 }
      (some { code := 9, domain := 7, message := none, level := 2,
              str1 := none, str2 := none, str3 := none, int1 := 1, int2 := 2 })).1
      (by decide)
  · exact ((saveError_spec zeroNetMessageError none).2.1 rfl rfl).1
  · exact ((saveError_spec zeroNetMessageError none).2.1 rfl rfl).2.2.1
  · exact ((saveError_spec zeroNetMessageError
      (some { code := 9, domain := 7, message := none, level := 2,
              str1 := none, str2 := none, str3 := none, int1 := 1, int2 := 2 })).2.2
      rfl _ rfl).1
  · exact ((saveError_spec zeroNetMessageError
      (some { code := 9, domain := 7, message := none, level := 2,
              str1 := none, str2 := none, str3 := none, int1 := 1, int2 := 2 })).2.2
      rfl _ rfl).2.2.2.2.2.2.2.2

/-- Counterexample to C9 as stated: a message whose nfds exceeds FDS_MAX on
which EncodeNumFDs nevertheless succeeds and writes a count word, because
the source narrows the size_t counter to unsigned int before the FDS_MAX
comparison, so nfds = 4294967296 is compared as 0. -/
theorem encodeNumFDs_counterexample :
    VIR_NET_MESSAGE_NUM_FDS_MAX < c9Msg.nfds ∧
    (virNetMessageEncodeNumFDs c9Msg).1 = none ∧
    (virNetMessageEncodeNumFDs c9Msg).2.bufferOffset = 4 := by decide

/-- C9 amended: EncodeNumFDs narrows nfds to unsigned int first. It fails
with the TooManyFDs error exactly when nfds mod 2 to the 32 exceeds FDS_MAX,
and then the message is returned unchanged with nothing written; when the
narrowed count is within the cap and at least 4 stream bytes remain, the
count is XDR-encoded at bufferOffset and bufferOffset advances by 4 with
bufferLength unchanged. For nfds below 2 to the 32 (every state reachable
through AddFD or DecodeNumFDs) this is exactly the original claim. -/
theorem encodeNumFDs_spec (msg : VirNetMessageCore) :
    (VIR_NET_MESSAGE_NUM_FDS_MAX < msg.nfds % UINT_MOD →
      (virNetMessageEncodeNumFDs msg).1 = some RpcError.tooManyFDsOut ∧
      (virNetMessageEncodeNumFDs msg).2 = msg) ∧
    (msg.nfds % UINT_MOD ≤ VIR_NET_MESSAGE_NUM_FDS_MAX →
      4 ≤ msg.bufferLength - msg.bufferOffset →
      (virNetMessageEncodeNumFDs msg).1 = none ∧
      (virNetMessageEncodeNumFDs msg).2.buffer =
        writeU32 msg.buffer msg.bufferOffset (msg.nfds % UINT_MOD) ∧
      (virNetMessageEncodeNumFDs msg).2.bufferOffset = msg.bufferOffset + 4 ∧
      (virNetMessageEncodeNumFDs msg).2.bufferLength = msg.bufferLength) := by
  constructor
  · intro h
    simp only [virNetMessageEncodeNumFDs]
    rw [if_pos h]
    exact ⟨rfl, rfl⟩
  · intro h hcap
    simp only [virNetMessageEncodeNumFDs]
    rw [if_neg (by omega), if_neg (by omega)]
    exact ⟨rfl, rfl, rfl, rfl⟩

/-- Witness for C9 amended: nfds = 33 fails with TooManyFDs and leaves the
message unchanged, and nfds = 2 with 8 buffer bytes and cursor 4 encodes the
count at offset 4 and advances the cursor to 8. -/
theorem encodeNumFDs_spec_witness :
    (virNetMessageEncodeNumFDs { zeroCore with nfds := 33 }).1 =
      some RpcError.tooManyFDsOut ∧
    (virNetMessageEncodeNumFDs { zeroCore with nfds := 33 }).2 =
      { zeroCore with nfds := 33 } ∧
    (virNetMessageEncodeNumFDs
      { zeroCore with
        nfds := 2, bufferLength := 8, bufferOffset := 4,
        buffer := [0, 0, 0, 28, 0, 0, 0, 0] }).1 = none ∧
    (virNetMessageEncodeNumFDs
      { zeroCore with
        nfds := 2, bufferLength := 8, bufferOffset := 4,
        buffer := [0, 0, 0, 28, 0, 0, 0, 0] }).2.bufferOffset = 8 := by
  refine ⟨?_, ?_, ?_, ?_⟩
  · exact ((encodeNumFDs_spec { zeroCore with nfds := 33 }).1 (by decide)).1
  · exact ((encodeNumFDs_spec { zeroCore with nfds := 33 }).1 (by decide)).2
  · exact ((encodeNumFDs_spec
      { zeroCore with
        nfds := 2, bufferLength := 8, bufferOffset := 4,
        buffer := [0, 0, 0, 28, 0, 0, 0, 0] }).2 (by decide) (by decide)).1
  · exact ((encodeNumFDs_spec
      { zeroCore with
        nfds := 2, bufferLength := 8, bufferOffset := 4,
        buffer := [0, 0, 0, 28, 0, 0, 0, 0] }).2 (by decide) (by decide)).2.2.1

/-- C10: when DecodeNumFDs reads a count above FDS_MAX it does fail with the
TooManyFDs error, but only after the cursor mutation: the returned message
has bufferOffset already advanced past the count word. -/
theorem decodeNumFDs_error_advances (msg : VirNetMessageCore)
    (hcap : 4 ≤ msg.bufferLength - msg.bufferOffset)
    (hval : VIR_NET_MESSAGE_NUM_FDS_MAX < readU32 msg.buffer msg.bufferOffset) :
    (virNetMessageDecodeNumFDs msg).1 = some RpcError.tooManyFDsIn ∧
    (virNetMessageDecodeNumFDs msg).2.bufferOffset = msg.bufferOffset + 4 := by
  simp only [virNetMessageDecodeNumFDs]
  rw [if_neg (by omega), if_pos (by simpa using hval)]
  exact ⟨rfl, rfl⟩

/-- Witness for C10: the count word 00 00 00 21 (33) makes DecodeNumFDs fail
with TooManyFDs while the cursor has moved from 0 to 4. -/
theorem decodeNumFDs_error_advances_witness :
    (virNetMessageDecodeNumFDs
      { zeroCore with bufferLength := 4, buffer := [0, 0, 0, 33] }).1 =
      some RpcError.tooManyFDsIn ∧
    (virNetMessageDecodeNumFDs
      { zeroCore with bufferLength := 4, buffer := [0, 0, 0, 33] }).2.bufferOffset = 4 :=
  decodeNumFDs_error_advances
    { zeroCore with bufferLength := 4, buffer := [0, 0, 0, 33] }
    (by decide) (by decide)

/-- A message with no next link lists as itself. -/
theorem queueToList_single (m : VirNetMessage) (hm : m.next = none) :
    queueToList (some m) = [m] := by
  cases m with
  | mk c n =>
    simp only [VirNetMessage.next] at hm
    subst hm
    simp [queueToList]

/-- Appending at the tail of the chain appends to the service order. -/
theorem chainAppend_toList (m : VirNetMessage) (hm : m.next = none) :
    ∀ h : VirNetMessage,
      queueToList (some (chainAppend h m)) = queueToList (some h) ++ [m]
  | .mk c none => by
    simp [chainAppend, queueToList, queueToList_single m hm]
  | .mk c (some n) => by
    simp [chainAppend, queueToList, chainAppend_toList m hm n]

/-- Push appends to the service order. -/
theorem push_toList (q : Option VirNetMessage) (m : VirNetMessage)
    (hm : m.next = none) :
    queueToList (virNetMessageQueuePush q m) = queueToList q ++ [m] := by
  cases q with
  | none =>
    simp [virNetMessageQueuePush, queueToList, queueToList_single m hm]
  | some h => simp [virNetMessageQueuePush, chainAppend_toList m hm h]

/-- Folding pushes of fresh messages appends them all in order. -/
theorem pushAll_toList (ms : List VirNetMessage)
    (hms : ∀ m ∈ ms, m.next = none) :
    ∀ q : Option VirNetMessage,
      queueToList (ms.foldl virNetMessageQueuePush q) = queueToList q ++ ms := by
  induction ms with
  | nil => intro q; simp
  | cons m rest ih =>
    intro q
    simp only [List.foldl_cons]
    rw [ih (fun x hx => hms x (List.mem_cons_of_mem m hx)),
      push_toList q m (hms m (List.mem_cons_self m rest))]
    simp

/-- Serving as many times as the queue is long returns the service order. -/
theorem serveList_toList (n : Nat) :
    ∀ q : Option VirNetMessage, n = (queueToList q).length →
      queueServeList q n = (queueToList q).map some := by
  induction n with
  | zero =>
    intro q hq
    cases q with
    | none => simp [queueServeList, queueToList]
    | some m =>
      cases m with
      | mk c nn => simp [queueToList] at hq
  | succ k ih =>
    intro q hq
    cases q with
    | none => simp [queueToList] at hq
    | some m =>
      cases m with
      | mk c nn =>
        simp only [queueToList, List.length_cons, Nat.succ_inj] at hq
        simp [queueServeList, virNetMessageQueueServe, queueToList, ih nn hq]

/-- C5: pushing fresh messages m1..mn in order onto the empty queue and
serving n times returns m1..mn in that order, every returned message has a
null next link, and serving the empty queue returns null. -/
theorem queue_fifo (ms : List VirNetMessage)
    (hms : ∀ m ∈ ms, m.next = none) :
    queueServeList (ms.foldl virNetMessageQueuePush none) ms.length =
      ms.map some ∧
    (∀ r ∈ queueServeList (ms.foldl virNetMessageQueuePush none) ms.length,
      ∀ m, r = some m → m.next = none) ∧
    virNetMessageQueueServe none = (none, none) := by
  have hq : queueToList (ms.foldl virNetMessageQueuePush none) = ms := by
    simpa [queueToList] using pushAll_toList ms hms none
  have h1 : queueServeList (ms.foldl virNetMessageQueuePush none) ms.length
      = ms.map some := by
    rw [serveList_toList ms.length _ (by rw [hq]), hq]
  refine ⟨h1, ?_, rfl⟩
  intro r hr m hrm
  rw [h1] at hr
  rcases List.mem_map.mp hr with ⟨x, hx, hxr⟩
  rw [hrm] at hxr
  have hxm : x = m := by injection hxr
  exact hxm ▸ hms x hx

/-- Witness for C5: pushing the three distinct fresh messages A, B, C and
serving three times returns A, B, C in order, and serving the empty queue
returns null. -/
theorem queue_fifo_witness :
    queueServeList
      (([qMsgA, qMsgB, qMsgC]).foldl virNetMessageQueuePush none) 3 =
      [some qMsgA, some qMsgB, some qMsgC] ∧
    virNetMessageQueueServe none = (none, none) := by
  have h := queue_fifo [qMsgA, qMsgB, qMsgC]
    (by
      intro m hm
      simp only [List.mem_cons, List.not_mem_nil, or_false] at hm
      rcases hm with rfl | rfl | rfl <;> rfl)
  exact ⟨h.1, h.2.2⟩

/-- writeBytes preserves the allocation size. -/
theorem writeBytes_length (bs : List Nat) : ∀ buf p,
    (writeBytes buf p bs).length = buf.length := by
  induction bs with
  | nil => intro buf p; rfl
  | cons b rest ih => intro buf p; simp [writeBytes, ih]

/-- writeU32 preserves the allocation size. -/
theorem writeU32_length (buf : List Nat) (p v : Nat) :
    (writeU32 buf p v).length = buf.length := by
  simp [writeU32]

/-- resizeTo yields exactly the requested size. -/
theorem resizeTo_length (buf : List Nat) (n : Nat) :
    (resizeTo buf n).length = n := by
  simp only [resizeTo, List.length_append, List.length_take,
    List.length_replicate]
  omega

/-- Reading back the word written at position 0. -/
theorem readU32_writeU32_zero (buf : List Nat) (v : Nat)
    (hlen : 4 ≤ buf.length) (hv : v < UINT_MOD) :
    readU32 (writeU32 buf 0 v) 0 = v := by
  rcases buf with _ | ⟨b0, buf⟩
  · simp at hlen
  rcases buf with _ | ⟨b1, buf⟩
  · simp at hlen
  rcases buf with _ | ⟨b2, buf⟩
  · simp at hlen
  rcases buf with _ | ⟨b3, buf⟩
  · simp at hlen
  simp only [writeU32, readU32, beVal, List.set_cons_zero, List.set_cons_succ,
    List.getD_cons_zero, List.getD_cons_succ]
  simp only [UINT_MOD] at hv
  omega

/-- payloadFinalize never fails: it resets the cursor, publishes the written
size as bufferLength and stores the narrowed word at position 0. -/
theorem payloadFinalize_fields (msg : VirNetMessageCore) :
    (payloadFinalize msg).1 = none ∧
    (payloadFinalize msg).2.bufferOffset = 0 ∧
    (payloadFinalize msg).2.bufferLength = msg.bufferOffset ∧
    (payloadFinalize msg).2.buffer =
      writeU32 msg.buffer 0 (msg.bufferOffset % UINT_MOD) := by
  simp only [payloadFinalize, VIR_NET_MESSAGE_HEADER_XDR_LEN]
  rw [if_neg (by omega)]
  exact ⟨rfl, rfl, rfl, rfl⟩

/-- When the written size fits unsigned int and the allocation covers the
length word, the finalised length word reads back as bufferLength. -/
theorem payloadFinalize_lenword (msg : VirNetMessageCore)
    (hlen : 4 ≤ msg.buffer.length) (hv : msg.bufferOffset < UINT_MOD) :
    readU32 (payloadFinalize msg).2.buffer 0 =
      (payloadFinalize msg).2.bufferLength := by
  obtain ⟨-, -, h2, h3⟩ := payloadFinalize_fields msg
  rw [h3, h2,
    readU32_writeU32_zero _ _ hlen (Nat.mod_lt _ (by simp [UINT_MOD]))]
  exact Nat.mod_eq_of_lt hv

/-- Through any number of growth iterations, a successful typed payload
encode ends finalised: the cursor is reset to 0 and the length word at
position 0 reads back as the published bufferLength. The hypotheses are the
state virNetMessageEncodeHeader establishes. -/
theorem encodePayloadAux_finalized (f : XdrFilter) (hwf : filterWF f) :
    ∀ fuel msg, msg.bufferOffset ≤ msg.bufferLength →
      msg.bufferLength ≤ VIR_NET_MESSAGE_MAX + 4 →
      4 ≤ msg.bufferOffset →
      msg.buffer.length = msg.bufferLength →
      (encodePayloadAux f fuel msg).1 = none →
      readU32 (encodePayloadAux f fuel msg).2.buffer 0 =
        (encodePayloadAux f fuel msg).2.bufferLength ∧
      (encodePayloadAux f fuel msg).2.bufferOffset = 0 := by
  intro fuel
  induction fuel with
  | zero =>
    intro msg _ _ _ _ hsucc
    simp [encodePayloadAux] at hsucc
  | succ k ih =>
    intro msg hinv hmax hoff hbuf hsucc
    have hLcases := hsucc
    cases hf : f (msg.bufferLength - msg.bufferOffset) with
    | some out =>
      have hout := hwf _ _ hf
      simp only [encodePayloadAux, hf] at hsucc ⊢
      refine ⟨payloadFinalize_lenword _ ?_ ?_, (payloadFinalize_fields _).2.1⟩
      · simp only [writeBytes_length, hbuf]
        omega
      · simp only [VIR_NET_MESSAGE_MAX] at hmax
        simp only [UINT_MOD]
        omega
    | none =>
      simp only [encodePayloadAux, hf] at hsucc ⊢
      by_cases hg :
          VIR_NET_MESSAGE_MAX <
            (msg.bufferLength + SIZE_T_MOD - VIR_NET_MESSAGE_LEN_MAX)
              % SIZE_T_MOD % UINT_MOD * 2 % UINT_MOD
      · rw [if_pos hg] at hsucc
        simp at hsucc
      · rw [if_neg hg] at hsucc ⊢
        simp only [VIR_NET_MESSAGE_MAX] at hmax
        simp only [VIR_NET_MESSAGE_MAX, VIR_NET_MESSAGE_LEN_MAX, SIZE_T_MOD,
          UINT_MOD] at hg
        refine ih _ ?_ ?_ ?_ ?_ hsucc
        · simp only [VIR_NET_MESSAGE_LEN_MAX, SIZE_T_MOD, UINT_MOD]
          omega
        · simp only [VIR_NET_MESSAGE_MAX, VIR_NET_MESSAGE_LEN_MAX, SIZE_T_MOD,
            UINT_MOD]
          omega
        · simpa using hoff
        · simp only [resizeTo_length]

/-- A successful raw payload encode ends finalised likewise. -/
theorem encodePayloadRaw_finalized (msg : VirNetMessageCore)
    (d : Option (List Nat))
    (hinv : msg.bufferOffset ≤ msg.bufferLength)
    (hmax : msg.bufferLength ≤ VIR_NET_MESSAGE_MAX + 4)
    (hoff : 4 ≤ msg.bufferOffset)
    (hbuf : msg.buffer.length = msg.bufferLength) :
    (virNetMessageEncodePayloadRaw msg d).1 = none →
    readU32 (virNetMessageEncodePayloadRaw msg d).2.buffer 0 =
      (virNetMessageEncodePayloadRaw msg d).2.bufferLength ∧
    (virNetMessageEncodePayloadRaw msg d).2.bufferOffset = 0 := by
  intro hsucc
  simp only [VIR_NET_MESSAGE_MAX] at hmax
  cases d with
  | none =>
    refine ⟨payloadFinalize_lenword _ ?_ ?_, (payloadFinalize_fields _).2.1⟩
    · omega
    · simp only [UINT_MOD]
      omega
  | some l =>
    simp only [virNetMessageEncodePayloadRaw] at hsucc ⊢
    by_cases h0 : 0 < l.length
    · rw [if_pos h0] at hsucc ⊢
      by_cases hcap : msg.bufferLength - msg.bufferOffset < l.length
      · rw [if_pos hcap] at hsucc ⊢
        by_cases hover : msg.bufferOffset + l.length >
            VIR_NET_MESSAGE_MAX + VIR_NET_MESSAGE_LEN_MAX
        · rw [if_pos hover] at hsucc
          simp at hsucc
        · rw [if_neg hover] at hsucc ⊢
          simp only [VIR_NET_MESSAGE_MAX, VIR_NET_MESSAGE_LEN_MAX] at hover
          refine ⟨payloadFinalize_lenword _ ?_ ?_, (payloadFinalize_fields _).2.1⟩
          · simp only [writeBytes_length, resizeTo_length]
            omega
          · simp only [UINT_MOD]
            omega
      · rw [if_neg hcap] at hsucc ⊢
        refine ⟨payloadFinalize_lenword _ ?_ ?_, (payloadFinalize_fields _).2.1⟩
        · simp only [writeBytes_length, hbuf]
          omega
        · simp only [UINT_MOD]
          omega
    · rw [if_neg h0] at hsucc ⊢
      refine ⟨payloadFinalize_lenword _ ?_ ?_, (payloadFinalize_fields _).2.1⟩
      · omega
      · simp only [UINT_MOD]
        omega

/-- C3: after every successful finalisation by the typed or the raw payload
encoder, the big-endian unsigned 32-bit word at offset 0 of the buffer
equals bufferLength, and bufferOffset has been reset to 0. The hypotheses
describe the state EncodeHeader establishes: the cursor lies between the
length word and the declared length, the declared length is within the frame
cap and matches the allocation. -/
theorem encode_finalize_lenword (msg : VirNetMessageCore) (f : XdrFilter)
    (d : Option (List Nat)) (hwf : filterWF f)
    (hinv : msg.bufferOffset ≤ msg.bufferLength)
    (hmax : msg.bufferLength ≤ VIR_NET_MESSAGE_MAX + VIR_NET_MESSAGE_LEN_MAX)
    (hoff : 4 ≤ msg.bufferOffset)
    (hbuf : msg.buffer.length = msg.bufferLength) :
    ((virNetMessageEncodePayload msg f).1 = none →
      readU32 (virNetMessageEncodePayload msg f).2.buffer 0 =
        (virNetMessageEncodePayload msg f).2.bufferLength ∧
      (virNetMessageEncodePayload msg f).2.bufferOffset = 0) ∧
    ((virNetMessageEncodePayloadRaw msg d).1 = none →
      readU32 (virNetMessageEncodePayloadRaw msg d).2.buffer 0 =
        (virNetMessageEncodePayloadRaw msg d).2.bufferLength ∧
      (virNetMessageEncodePayloadRaw msg d).2.bufferOffset = 0) := by
  constructor
  · intro hsucc
    exact encodePayloadAux_finalized f hwf 64 msg hinv
      (by simpa [VIR_NET_MESSAGE_LEN_MAX] using hmax) hoff hbuf hsucc
  · intro hsucc
    exact encodePayloadRaw_finalized msg d hinv
      (by simpa [VIR_NET_MESSAGE_LEN_MAX] using hmax) hoff hbuf hsucc

/-- Witness for C3: on a post-header-shaped 12-byte message, a typed encode
through a marshaller writing two bytes and a raw encode of two bytes both
succeed, the finalised length word reads back as bufferLength, and the
cursor is reset. -/
theorem encode_finalize_lenword_witness :
    (virNetMessageEncodePayload finWitnessMsg finWitnessFilter).1 = none ∧
    readU32
        (virNetMessageEncodePayload finWitnessMsg finWitnessFilter).2.buffer 0 =
      (virNetMessageEncodePayload finWitnessMsg finWitnessFilter).2.bufferLength ∧
    (virNetMessageEncodePayload finWitnessMsg finWitnessFilter).2.bufferOffset
      = 0 ∧
    (virNetMessageEncodePayloadRaw finWitnessMsg (some [9, 9])).1 = none ∧
    readU32
        (virNetMessageEncodePayloadRaw finWitnessMsg (some [9, 9])).2.buffer 0 =
      (virNetMessageEncodePayloadRaw finWitnessMsg (some [9, 9])).2.bufferLength ∧
    (virNetMessageEncodePayloadRaw finWitnessMsg (some [9, 9])).2.bufferOffset
      = 0 := by
  have hwf : filterWF finWitnessFilter := by
    intro n l h
    simp only [finWitnessFilter] at h
    by_cases hn : 2 ≤ n
    · rw [if_pos hn] at h
      cases h
      simpa using hn
    · rw [if_neg hn] at h
      cases h
  have h := encode_finalize_lenword finWitnessMsg finWitnessFilter (some [9, 9])
    hwf (by decide) (by decide) (by decide) (by simp [finWitnessMsg])
  have hs1 : (virNetMessageEncodePayload finWitnessMsg finWitnessFilter).1 =
      none := by decide
  have hs2 : (virNetMessageEncodePayloadRaw finWitnessMsg (some [9, 9])).1 =
      none := by decide
  exact ⟨hs1, (h.1 hs1).1, (h.1 hs1).2, hs2, (h.2 hs2).1, (h.2 hs2).2⟩

/-- C2: whenever the marshaller callback fails, for any reason, on a message
within post-header bounds, the codec doubles the payload capacity
bufferLength - LEN_MAX (growing the allocation along) and retries the
marshaller, and it gives up with the payloadTooLarge report exactly when the
doubled payload capacity would exceed VIR_NET_MESSAGE_MAX. -/
theorem encodePayload_grow_retry (fuel : Nat) (msg : VirNetMessageCore)
    (f : XdrFilter) (h4 : 4 ≤ msg.bufferLength)
    (hmax : msg.bufferLength ≤ VIR_NET_MESSAGE_MAX + VIR_NET_MESSAGE_LEN_MAX)
    (hfail : f (msg.bufferLength - msg.bufferOffset) = none) :
    (VIR_NET_MESSAGE_MAX < 2 * (msg.bufferLength - 4) →
      encodePayloadAux f (fuel + 1) msg =
        (some RpcError.payloadTooLarge, msg)) ∧
    (2 * (msg.bufferLength - 4) ≤ VIR_NET_MESSAGE_MAX →
      encodePayloadAux f (fuel + 1) msg =
        encodePayloadAux f fuel
          { msg with
            bufferLength :=
              2 * (msg.bufferLength - 4) + VIR_NET_MESSAGE_LEN_MAX,
            buffer := resizeTo msg.buffer
              (2 * (msg.bufferLength - 4) + VIR_NET_MESSAGE_LEN_MAX) }) := by
  have hnl :
      (msg.bufferLength + SIZE_T_MOD - VIR_NET_MESSAGE_LEN_MAX)
        % SIZE_T_MOD % UINT_MOD * 2 % UINT_MOD =
        2 * (msg.bufferLength - 4) := by
    simp only [SIZE_T_MOD, UINT_MOD, VIR_NET_MESSAGE_LEN_MAX,
      VIR_NET_MESSAGE_MAX] at *
    omega
  constructor
  · intro h
    simp only [encodePayloadAux, hfail, hnl]
    rw [if_pos h]
  · intro h
    simp only [encodePayloadAux, hfail, hnl]
    rw [if_neg (by omega)]

/-- Witness for C2: with an always-failing marshaller, a message with 4
payload bytes of capacity doubles to 8 and retries, and a message already at
the frame cap gives up with the payloadTooLarge report. -/
theorem encodePayload_grow_retry_witness :
    encodePayloadAux (fun _ => none) 3 growWitnessMsg =
      encodePayloadAux (fun _ => none) 2
        { growWitnessMsg with
          bufferLength :=
            2 * (growWitnessMsg.bufferLength - 4) + VIR_NET_MESSAGE_LEN_MAX,
          buffer := resizeTo growWitnessMsg.buffer
            (2 * (growWitnessMsg.bufferLength - 4) +
              VIR_NET_MESSAGE_LEN_MAX) } ∧
    encodePayloadAux (fun _ => none) 1 capWitnessMsg =
      (some RpcError.payloadTooLarge, capWitnessMsg) := by
  constructor
  · exact (encodePayload_grow_retry 2 growWitnessMsg (fun _ => none)
      (by decide) (by decide) rfl).2 (by decide)
  · exact (encodePayload_grow_retry 0 capWitnessMsg (fun _ => none)
      (by decide) (by decide) rfl).1 (by decide)

/-- Finalisation satisfies both halves of the amended growth claim relative
to any starting cursor at or below the written size within the cap. -/
theorem payloadFinalize_step (msg M : VirNetMessageCore)
    (hoff : msg.bufferOffset ≤ M.bufferOffset)
    (hcap : M.bufferOffset ≤
      VIR_NET_MESSAGE_MAX + VIR_NET_MESSAGE_LEN_MAX) :
    cursorInv (payloadFinalize M).2 ∧ stepRel msg (payloadFinalize M).2 := by
  obtain ⟨-, ho, hl, -⟩ := payloadFinalize_fields M
  refine ⟨⟨?_, ?_⟩, Or.inr ⟨ho, ?_⟩⟩
  · rw [ho]
    omega
  · rw [hl]
    exact hcap
  · rw [hl]
    exact hoff

/-- EncodeNumFDs preserves the cursor invariant and never shrinks the
declared length. -/
theorem encodeNumFDs_step (msg : VirNetMessageCore) (h : cursorInv msg) :
    cursorInv (virNetMessageEncodeNumFDs msg).2 ∧
    stepRel msg (virNetMessageEncodeNumFDs msg).2 := by
  obtain ⟨h1, h2⟩ := h
  simp only [virNetMessageEncodeNumFDs]
  by_cases ha : msg.nfds % UINT_MOD > VIR_NET_MESSAGE_NUM_FDS_MAX
  · rw [if_pos ha]
    exact ⟨⟨h1, h2⟩, Or.inl le_rfl⟩
  · rw [if_neg ha]
    by_cases hb : msg.bufferLength - msg.bufferOffset < 4
    · rw [if_pos hb]
      exact ⟨⟨h1, h2⟩, Or.inl le_rfl⟩
    · rw [if_neg hb]
      refine ⟨⟨?_, h2⟩, Or.inl le_rfl⟩
      simp only []
      omega

/-- The raw payload encoder preserves the cursor invariant, and shrinks the
declared length only through finalisation. -/
theorem encodePayloadRaw_step (msg : VirNetMessageCore)
    (d : Option (List Nat)) (h : cursorInv msg) :
    cursorInv (virNetMessageEncodePayloadRaw msg d).2 ∧
    stepRel msg (virNetMessageEncodePayloadRaw msg d).2 := by
  obtain ⟨h1, h2⟩ := h
  cases d with
  | none => exact payloadFinalize_step msg msg le_rfl (le_trans h1 h2)
  | some l =>
    simp only [virNetMessageEncodePayloadRaw]
    by_cases h0 : 0 < l.length
    · rw [if_pos h0]
      by_cases hcap : msg.bufferLength - msg.bufferOffset < l.length
      · rw [if_pos hcap]
        by_cases hover : msg.bufferOffset + l.length >
            VIR_NET_MESSAGE_MAX + VIR_NET_MESSAGE_LEN_MAX
        · rw [if_pos hover]
          exact ⟨⟨h1, h2⟩, Or.inl le_rfl⟩
        · rw [if_neg hover]
          refine payloadFinalize_step msg _ ?_ ?_
          · simp only []
            omega
          · simp only []
            omega
      · rw [if_neg hcap]
        refine payloadFinalize_step msg _ ?_ ?_
        · simp only []
          omega
        · simp only []
          omega
    · rw [if_neg h0]
      exact payloadFinalize_step msg msg le_rfl (le_trans h1 h2)

/-- The typed payload growth loop preserves the cursor invariant, and
shrinks the declared length only through finalisation. -/
theorem encodePayloadAux_step (f : XdrFilter) (hwf : filterWF f) :
    ∀ fuel msg, cursorInv msg →
      cursorInv (encodePayloadAux f fuel msg).2 ∧
      stepRel msg (encodePayloadAux f fuel msg).2 := by
  intro fuel
  induction fuel with
  | zero =>
    intro msg h
    exact ⟨h, Or.inl le_rfl⟩
  | succ k ih =>
    intro msg h
    obtain ⟨h1, h2⟩ := h
    cases hf : f (msg.bufferLength - msg.bufferOffset) with
    | some out =>
      have hout := hwf _ _ hf
      simp only [encodePayloadAux, hf]
      refine payloadFinalize_step msg _ ?_ ?_
      · simp only []
        omega
      · simp only []
        omega
    | none =>
      simp only [encodePayloadAux, hf]
      by_cases hg : (msg.bufferLength + SIZE_T_MOD - VIR_NET_MESSAGE_LEN_MAX)
          % SIZE_T_MOD % UINT_MOD * 2 % UINT_MOD > VIR_NET_MESSAGE_MAX
      · rw [if_pos hg]
        exact ⟨⟨h1, h2⟩, Or.inl le_rfl⟩
      · rw [if_neg hg]
        have hLb : msg.bufferLength ≤
            (msg.bufferLength + SIZE_T_MOD - VIR_NET_MESSAGE_LEN_MAX)
              % SIZE_T_MOD % UINT_MOD * 2 % UINT_MOD +
              VIR_NET_MESSAGE_LEN_MAX := by
          simp only [SIZE_T_MOD, UINT_MOD, VIR_NET_MESSAGE_LEN_MAX,
            VIR_NET_MESSAGE_MAX] at *
          omega
        obtain ⟨hi, hrel⟩ := ih
          { msg with
            bufferLength :=
              (msg.bufferLength + SIZE_T_MOD - VIR_NET_MESSAGE_LEN_MAX)
                % SIZE_T_MOD % UINT_MOD * 2 % UINT_MOD +
                VIR_NET_MESSAGE_LEN_MAX,
            buffer := resizeTo msg.buffer
              ((msg.bufferLength + SIZE_T_MOD - VIR_NET_MESSAGE_LEN_MAX)
                % SIZE_T_MOD % UINT_MOD * 2 % UINT_MOD +
                VIR_NET_MESSAGE_LEN_MAX) }
          ⟨by simp only []; omega, by simp only []; omega⟩
        refine ⟨hi, ?_⟩
        rcases hrel with hrel | ⟨ho, hle⟩
        · refine Or.inl (le_trans hLb ?_)
          simpa using hrel
        · exact Or.inr ⟨ho, by simpa using hle⟩

/-- One encode step preserves the cursor invariant and satisfies the step
relation. -/
theorem encodeStep_ok (msg : VirNetMessageCore) (op : EncodeOp)
    (hop : encodeOpWF op) (h : cursorInv msg) :
    cursorInv (encodeStep msg op).2 ∧ stepRel msg (encodeStep msg op).2 := by
  cases op with
  | opNumFDs => exact encodeNumFDs_step msg h
  | opPayload f => exact encodePayloadAux_step f hop 64 msg h
  | opPayloadRaw d => exact encodePayloadRaw_step msg d h

/-- The state list always starts with the starting state. -/
theorem encodeStates_head (msg : VirNetMessageCore) (ops : List EncodeOp) :
    (encodeStates msg ops).head? = some msg := by
  cases ops <;> rfl

/-- Extending a checked chain by a related head keeps it checked. -/
theorem chainB_cons_of (r : VirNetMessageCore → VirNetMessageCore → Bool)
    (s : VirNetMessageCore) (l : List VirNetMessageCore)
    (hl : chainB r l = true)
    (hr : ∀ x, l.head? = some x → r s x = true) :
    chainB r (s :: l) = true := by
  cases l with
  | nil => rfl
  | cons x t =>
    simp only [chainB, Bool.and_eq_true]
    exact ⟨hr x rfl, hl⟩

/-- The Prop step relation implies the Bool check. -/
theorem stepRel_monoB (s s' : VirNetMessageCore) (h : stepRel s s') :
    encodeMonoB s s' = true := by
  rcases h with h | ⟨h1, h2⟩
  · simp [encodeMonoB, h]
  · simp [encodeMonoB, h1, h2]

/-- Any encode sequence from a state satisfying the cursor invariant passes
the full trace check. -/
theorem encodeStates_ok (ops : List EncodeOp) :
    ∀ msg, (∀ op ∈ ops, encodeOpWF op) → cursorInv msg →
      encodeTraceOK (encodeStates msg ops) = true := by
  induction ops with
  | nil =>
    intro msg _ h
    simp only [encodeStates, encodeTraceOK, List.all_cons, List.all_nil,
      chainB, Bool.and_true, Bool.and_eq_true, decide_eq_true_eq]
    exact h.1
  | cons op rest ih =>
    intro msg hops h
    have hstep := encodeStep_ok msg op (hops op (List.mem_cons_self op rest)) h
    have hrest := ih (encodeStep msg op).2
      (fun o ho => hops o (List.mem_cons_of_mem op ho)) hstep.1
    simp only [encodeTraceOK, Bool.and_eq_true] at hrest
    simp only [encodeStates, encodeTraceOK, List.all_cons, Bool.and_eq_true,
      decide_eq_true_eq]
    refine ⟨⟨h.1, hrest.1⟩, ?_⟩
    refine chainB_cons_of _ _ _ hrest.2 ?_
    intro x hx
    rw [encodeStates_head] at hx
    cases hx
    exact stepRel_monoB _ _ hstep.2

/-- EncodeHeader always succeeds in this embedding (the fixed allocation
covers the length word and the 24 header bytes) and leaves the cursor at 28
with the declared length INITIAL + LEN_MAX. -/
theorem encodeHeader_state (msg : VirNetMessageCore) :
    (virNetMessageEncodeHeader msg).1 = none ∧
    (virNetMessageEncodeHeader msg).2.bufferOffset = 28 ∧
    (virNetMessageEncodeHeader msg).2.bufferLength =
      VIR_NET_MESSAGE_INITIAL + VIR_NET_MESSAGE_LEN_MAX :=
  ⟨rfl, rfl, rfl⟩

/-- C4 amended: along every encode sequence starting with EncodeHeader,
bufferOffset stays at or below bufferLength, and bufferLength never
decreases except at a successful payload finalisation, which resets
bufferOffset to 0 and keeps bufferLength at least the bytes already written
(the Bool trace check spells out exactly these conditions). The claim as
frozen, with bufferLength globally non-decreasing, fails: see the
counterexample. -/
theorem encode_growth_invariant (msg : VirNetMessageCore)
    (ops : List EncodeOp) (hops : ∀ op ∈ ops, encodeOpWF op) :
    encodeTraceOK (encodeRun msg ops) = true := by
  apply encodeStates_ok ops _ hops
  obtain ⟨-, ho, hl⟩ := encodeHeader_state msg
  constructor
  · rw [ho, hl]
    norm_num [VIR_NET_MESSAGE_INITIAL, VIR_NET_MESSAGE_LEN_MAX]
  · rw [hl]
    norm_num [VIR_NET_MESSAGE_INITIAL, VIR_NET_MESSAGE_LEN_MAX,
      VIR_NET_MESSAGE_MAX]

/-- Counterexample to C4 as stated: EncodeHeader followed by the canonical
empty-frame finalisation EncodePayloadRaw with a null data pointer is a
legal encode sequence on which the raw encode succeeds and bufferLength
falls from 65540 to 28, so bufferLength does decrease during encode. -/
theorem encode_growth_counterexample :
    (encodeRun zeroCore [EncodeOp.opPayloadRaw none]).map
        VirNetMessageCore.bufferLength = [65540, 28] ∧
    (virNetMessageEncodePayloadRaw
        (virNetMessageEncodeHeader zeroCore).2 none).1 = none ∧
    ¬ (65540 ≤ 28) := by
  refine ⟨?_, ?_, by omega⟩
  · rfl
  · rfl

/-- Witness for C4 amended: the run encoding a FD count and then two raw
payload bytes passes the trace check. -/
theorem encode_growth_invariant_witness :
    encodeTraceOK (encodeRun zeroCore
      [EncodeOp.opNumFDs, EncodeOp.opPayloadRaw (some [171, 171])]) = true :=
  encode_growth_invariant zeroCore
    [EncodeOp.opNumFDs, EncodeOp.opPayloadRaw (some [171, 171])]
    (by
      intro op hop
      simp only [List.mem_cons, List.not_mem_nil, or_false] at hop
      rcases hop with rfl | rfl <;> trivial)
